import Mathlib

/-!
Verification of the llmx Python library (a unified client over multiple LLM
HTTP APIs) against its natural-language specification.

Shallow embedding conventions:
* Python strings are Lean `String`s; serialization and slicing work on the
  underlying `List Char` (one element per Unicode code point, matching
  Python's `len`/indexing semantics).
* Python `None`-able values are `Option`s; code that raises is embedded as
  `Except`-returning functions.
* Python floats appear in the data model only as opaque payloads of the
  cache key (`json.dumps` prints a float via `repr`, which is injective on
  floats: the shortest decimal string that round-trips).  A float is
  therefore modelled by that canonical decimal/`Infinity`/`NaN` token
  (`PyFloat`): two distinct floats have distinct tokens and vice versa.
* Mutable Python objects that matter for aliasing (the cached `Response`
  objects) live in an explicit heap (`Nat` references), so that pydantic
  attribute assignment on a shared object is modelled faithfully.
-/

namespace LLMX

/-- Roles of `types.Message` (`Literal["system", "user", "assistant"]`);
any other value is a pydantic construction-time error, so the Lean type is
the closed enum. -/
inductive Role where
  | system
  | user
  | assistant
deriving DecidableEq, Repr

/-- The wire string of a role, as pydantic stores it. -/
def Role.str : Role → String
  | .system => "system"
  | .user => "user"
  | .assistant => "assistant"

/-- `types.Message`. -/
structure Message where
  role : Role
  content : String
deriving DecidableEq, Repr

/-- `types.Choice`. -/
structure Choice where
  content : String
  finish_reason : Option String := none
deriving DecidableEq, Repr

/-- `types.Usage`. -/
structure Usage where
  prompt_tokens : Int
  completion_tokens : Int
  total_tokens : Int
deriving DecidableEq, Repr

/-- `types.Response` (the list of choices is the field `text`). -/
structure Response where
  text : List Choice
  usage : Option Usage := none
  provider : String
  model : String
  cached : Bool := false
deriving DecidableEq, Repr

/-- `types.StreamChunk`. -/
structure StreamChunk where
  content : String
  finish_reason : Option String := none
  done : Bool := false
deriving DecidableEq, Repr

/-- Characters a JSON number token printed by Python can be built from:
digits, sign, decimal point, exponent marker, and the letters of
`Infinity`/`NaN`.  Crucially the class excludes `,`, `\x7d`, `"` (the
delimiters that follow a number in `json.dumps` output) and the letters
`u`/`l` of `null`. -/
def numTokChar (c : Char) : Bool :=
  c.isDigit || c ∈ (['-', '+', '.', 'e', 'I', 'n', 'f', 'i', 't', 'y', 'N', 'a'] : List Char)

/-- A Python float, modelled by the token `json.dumps` prints for it:
`repr(f)` for finite floats (the shortest decimal that round-trips, hence
injective), `Infinity`/`-Infinity`/`NaN` for the specials.  `ok` restricts
the token to the character class such tokens are built from, which is what
the cache-key injectivity proof needs; two Python floats are equal iff
their tokens are equal. -/
structure PyFloat where
  tok : List Char
  ok : tok ≠ [] ∧ ∀ c ∈ tok, numTokChar c = true

/-- `types.GenerationConfig`. -/
structure GenerationConfig where
  model : Option String := none
  max_tokens : Option Int := none
  temperature : Option PyFloat := none
  top_p : Option PyFloat := none
  stream : Bool := false
  use_cache : Bool := true

/-- `types.CacheConfig` (the Redis fields are omitted: the claims under
verification are all about the configuration with no external store, where
`_redis_client is None`). -/
structure CacheConfig where
  enabled : Bool := true
  keyPre : String := "llmx:"

/-! ## Cache-key serialization (`cache.py`, `CacheManager.get_cache_key`)

`get_cache_key` builds the dict
`{"messages": [{"role": r, "content": c} ...], "model": m, "max_tokens": t,
"temperature": T, "top_p": p, "provider": v}`, serializes it with
`json.dumps(cache_data, sort_keys=True)` (default separators `", "` and
`": "`, `ensure_ascii=True`), hashes with SHA-256 and prepends the
configured key prefix.  Sorted key order is
max_tokens, messages, model, provider, temperature, top_p (and within a
message object: content, role).  The serializer is embedded below
character by character; SHA-256 is an abstract parameter assumed
injective, exactly the claim's "treated as collision-free". -/

/-- Lowercase hex digit, as `%04x` prints one. -/
def hexDigitChar (n : Nat) : Char :=
  if n < 10 then Char.ofNat (48 + n) else Char.ofNat (87 + n)

/-- Four lowercase hex digits of `n < 0x10000`, as `\uXXXX` escapes use. -/
def hex4 (n : Nat) : List Char :=
  [hexDigitChar (n / 4096 % 16), hexDigitChar (n / 256 % 16),
   hexDigitChar (n / 16 % 16), hexDigitChar (n % 16)]

/-- How `json.dumps` with `ensure_ascii=True` escapes one character: the
named two-character escapes, `\uXXXX` for other characters outside
`0x20..0x7e` (as a UTF-16 surrogate pair when the code point exceeds
`0xffff`), and the character itself otherwise. -/
def escChar (c : Char) : List Char :=
  if c = '\\' then ['\\', '\\']
  else if c = '"' then ['\\', '"']
  else if c = '\x08' then ['\\', 'b']
  else if c = '\x0c' then ['\\', 'f']
  else if c = '\n' then ['\\', 'n']
  else if c = '\r' then ['\\', 'r']
  else if c = '\t' then ['\\', 't']
  else if c.toNat < 0x20 ∨ 0x7e < c.toNat then
    if c.toNat < 0x10000 then '\\' :: 'u' :: hex4 c.toNat
    else
      ('\\' :: 'u' :: hex4 (0xd800 + (c.toNat - 0x10000) / 0x400)) ++
      ('\\' :: 'u' :: hex4 (0xdc00 + (c.toNat - 0x10000) % 0x400))
  else [c]

/-- JSON-escape a whole string. -/
def escape (s : List Char) : List Char := s.flatMap escChar

/-- Decimal digits of a natural number, most significant first
(`repr` of a non-negative int). -/
def natChars (n : Nat) : List Char :=
  if n = 0 then ['0']
  else ((Nat.digits 10 n).map fun d => Char.ofNat (48 + d)).reverse

/-- `repr` of a Python int. -/
def intChars : Int → List Char
  | .ofNat n => natChars n
  | .negSucc n => '-' :: natChars (n + 1)

/-- A JSON string literal: quote, escaped body, quote. -/
def quoteStr (s : String) : List Char := '"' :: (escape s.data ++ ['"'])

/-- Encode an optional value, `None` printing as `null`. -/
def optEnc (enc : α → List Char) : Option α → List Char
  | none => "null".data
  | some a => enc a

/-- One message as `json.dumps` prints it with sorted keys. -/
def msgEnc (m : Message) : List Char :=
  "\x7b\"content\": ".data ++ quoteStr m.content ++
  ", \"role\": ".data ++ quoteStr (Role.str m.role) ++ "\x7d".data

/-- Join with a separator (`", ".join`). -/
def joinSep (sep : List Char) : List (List Char) → List Char
  | [] => []
  | [x] => x
  | x :: y :: xs => x ++ sep ++ joinSep sep (y :: xs)

/-- The exact character sequence of
`json.dumps(cache_data, sort_keys=True)` in `get_cache_key`. -/
def dumpsCacheData (messages : List Message) (config : GenerationConfig)
    (provider : String) : List Char :=
  "\x7b\"max_tokens\": ".data ++ optEnc intChars config.max_tokens ++
  ", \"messages\": [".data ++ joinSep ", ".data (messages.map msgEnc) ++
  "], \"model\": ".data ++ optEnc quoteStr config.model ++
  ", \"provider\": ".data ++ quoteStr provider ++
  ", \"temperature\": ".data ++ optEnc PyFloat.tok config.temperature ++
  ", \"top_p\": ".data ++ optEnc PyFloat.tok config.top_p ++
  "\x7d".data

/-- `CacheManager.get_cache_key`: prefix plus the hex digest of the dump.
`sha` stands for `hashlib.sha256(cache_string.encode()).hexdigest()`; the
claims treat it as collision-free, so theorems take its injectivity as a
hypothesis. -/
def get_cache_key (sha : List Char → String) (cc : CacheConfig)
    (messages : List Message) (config : GenerationConfig) (provider : String) : String :=
  cc.keyPre ++ sha (dumpsCacheData messages config provider)

/-! ### A decoder for the cache-key serialization

To prove the serialization injective we exhibit a left inverse up to the
raw tokens: the decoder splits a dump back into the escaped string bodies
and the number tokens without interpreting them, so injectivity of the
whole dump reduces to injectivity of `escape`, `intChars` and
`PyFloat.tok`. -/

/-- Consume an expected literal. -/
def dropLit : List Char → List Char → Option (List Char)
  | [], s => some s
  | _ :: _, [] => none
  | c :: cs, d :: ds => if c = d then dropLit cs ds else none

/-- Scan a JSON string body up to its closing quote, keeping the body in
escaped form (a `\` always protects the following character). -/
def scanStr : List Char → Option (List Char × List Char)
  | [] => none
  | c :: rest =>
    if c = '"' then some ([], rest)
    else if c = '\\' then
      match rest with
      | [] => none
      | d :: rest2 => (scanStr rest2).map fun p => (c :: d :: p.1, p.2)
    else (scanStr rest).map fun p => (c :: p.1, p.2)

/-- Scan a number slot: `null`, or a maximal run of number-token
characters. -/
def scanOptNum (s : List Char) : Option (Option (List Char) × List Char) :=
  match dropLit "null".data s with
  | some rest => some (none, rest)
  | none =>
    match s.takeWhile numTokChar with
    | [] => none
    | tok => some (some tok, s.dropWhile numTokChar)

/-- Scan a quoted string: opening quote, body, closing quote; the body is
kept escaped. -/
def scanQuoted : List Char → Option (List Char × List Char)
  | '"' :: rest => scanStr rest
  | _ => none

/-- Scan a string slot: `null`, or a quoted string (kept escaped). -/
def scanOptStr (s : List Char) : Option (Option (List Char) × List Char) :=
  match dropLit "null".data s with
  | some rest => some (none, rest)
  | none => (scanQuoted s).map fun p => (some p.1, p.2)

/-- Scan one message object, returning the escaped content and role. -/
def scanMsg (s : List Char) : Option ((List Char × List Char) × List Char) := do
  let s ← dropLit "\x7b\"content\": ".data s
  let (c, s) ← scanQuoted s
  let s ← dropLit ", \"role\": ".data s
  let (r, s) ← scanQuoted s
  let s ← dropLit "\x7d".data s
  return ((c, r), s)

/-- Scan the non-empty tail of the messages array (fuel-driven). -/
def scanMsgsAux : Nat → List Char → Option (List (List Char × List Char) × List Char)
  | 0, _ => none
  | fuel + 1, s =>
    match scanMsg s with
    | none => none
    | some (pr, s1) =>
      match s1 with
      | ']' :: rest => some ([pr], rest)
      | ',' :: ' ' :: rest => (scanMsgsAux fuel rest).map fun p => (pr :: p.1, p.2)
      | _ => none

/-- Scan a whole messages array body (after the opening bracket). -/
def scanMsgList (s : List Char) : Option (List (List Char × List Char) × List Char) :=
  match s with
  | ']' :: rest => some ([], rest)
  | _ => scanMsgsAux (s.length + 1) s

/-- Value of a lowercase hex digit. -/
def hexDigitVal (c : Char) : Option Nat :=
  if c.isDigit then some (c.toNat - 48)
  else if 'a' ≤ c ∧ c ≤ 'f' then some (c.toNat - 87)
  else none

/-- Reverse of a named two-character escape. -/
def unescCtrl (d : Char) : Option Char :=
  if d = '\\' then some '\\'
  else if d = '"' then some '"'
  else if d = 'b' then some '\x08'
  else if d = 'f' then some '\x0c'
  else if d = 'n' then some '\n'
  else if d = 'r' then some '\r'
  else if d = 't' then some '\t'
  else none

/-- Combine four hex digits. -/
def hexVal4 (a b c d : Char) : Option Nat := do
  let d1 ← hexDigitVal a
  let d2 ← hexDigitVal b
  let d3 ← hexDigitVal c
  let d4 ← hexDigitVal d
  return d1 * 4096 + d2 * 256 + d3 * 16 + d4

/-- Undo `escape` (a left inverse on its image, which is what makes
`escape` injective). -/
def unescapeList : List Char → Option (List Char)
  | [] => some []
  | '\\' :: 'u' :: a :: b :: c :: d :: rest =>
    match hexVal4 a b c d with
    | none => none
    | some n =>
      if 0xd800 ≤ n ∧ n ≤ 0xdbff then
        match rest with
        | '\\' :: 'u' :: a2 :: b2 :: c2 :: d2 :: rest2 =>
          match hexVal4 a2 b2 c2 d2 with
          | some m =>
            if 0xdc00 ≤ m ∧ m ≤ 0xdfff then
              (unescapeList rest2).map
                (Char.ofNat (0x10000 + (n - 0xd800) * 0x400 + (m - 0xdc00)) :: ·)
            else none
          | none => none
        | _ => none
      else (unescapeList rest).map (Char.ofNat n :: ·)
  | '\\' :: d :: rest =>
    match unescCtrl d with
    | some c => (unescapeList rest).map (c :: ·)
    | none => none
  | c :: rest => (unescapeList rest).map (c :: ·)

/-- The raw tokens of a serialized `cache_data`: number tokens verbatim,
string bodies still escaped. -/
structure RawCD where
  mt : Option (List Char)
  msgs : List (List Char × List Char)
  mdl : Option (List Char)
  prov : List Char
  temp : Option (List Char)
  topp : Option (List Char)
deriving DecidableEq

/-- Decode a full dump into its raw tokens. -/
def decodeCD (s : List Char) : Option RawCD := do
  let s ← dropLit "\x7b\"max_tokens\": ".data s
  let (mt, s) ← scanOptNum s
  let s ← dropLit ", \"messages\": [".data s
  let (msgs, s) ← scanMsgList s
  let s ← dropLit ", \"model\": ".data s
  let (mdl, s) ← scanOptStr s
  let s ← dropLit ", \"provider\": ".data s
  let (prov, s) ← scanQuoted s
  let s ← dropLit ", \"temperature\": ".data s
  let (temp, s) ← scanOptNum s
  let s ← dropLit ", \"top_p\": ".data s
  let (topp, s) ← scanOptNum s
  let s ← dropLit "\x7d".data s
  if s = [] then return ⟨mt, msgs, mdl, prov, temp, topp⟩ else none

/-- The raw tokens `dumpsCacheData` actually embeds. -/
def rawOf (messages : List Message) (config : GenerationConfig)
    (provider : String) : RawCD where
  mt := config.max_tokens.map intChars
  msgs := messages.map fun m => (escape m.content.data, escape (Role.str m.role).data)
  mdl := config.model.map fun s => escape s.data
  prov := escape provider.data
  temp := config.temperature.map PyFloat.tok
  topp := config.top_p.map PyFloat.tok

/-! ## Error taxonomy (`exceptions.py`) and HTTP error translation -/

/-- The llmx exception kinds relevant to the claims, with the payloads the
constructors set. -/
inductive PyErr where
  | authenticationError (msg : String) (provider : String)
  | rateLimitError (msg : String) (provider : String)
  | providerError (msg : String) (provider : String) (status : Option Nat)
  | configurationError (msg : String)
  | validationError (msg : String)
  | transportError (raw : String)
deriving DecidableEq, Repr

/-- Outcome of one HTTP POST attempt inside an adapter's `generate` body:
a parsed success, a non-2xx status (with the backend error message when the
body parsed, else the raw HTTP error string), or a transport-level failure
that `httpx` raises before any status exists. -/
inductive HTTPOutcome where
  | success (resp : Response)
  | httpError (status : Nat) (parsedMsg : Option String) (raw : String)
  | transportFailure (raw : String)
deriving DecidableEq, Repr

/-- `OpenAIProvider._handle_http_error`. -/
def openai_handle_http_error (status : Nat) (parsedMsg : Option String) (raw : String) : PyErr :=
  if status = 401 then .authenticationError "Invalid API key" "openai"
  else if status = 429 then .rateLimitError "Rate limit exceeded" "openai"
  else .providerError (parsedMsg.getD raw) "openai" (some status)

/-- `ClaudeProvider._handle_http_error`. -/
def claude_handle_http_error (status : Nat) (parsedMsg : Option String) (raw : String) : PyErr :=
  if status = 401 then .authenticationError "Invalid API key" "claude"
  else if status = 429 then .rateLimitError "Rate limit exceeded" "claude"
  else .providerError (parsedMsg.getD raw) "claude" (some status)

/-- `CohereProvider._handle_http_error`. -/
def cohere_handle_http_error (status : Nat) (parsedMsg : Option String) (raw : String) : PyErr :=
  if status = 401 then .authenticationError "Invalid API key" "cohere"
  else if status = 429 then .rateLimitError "Rate limit exceeded" "cohere"
  else .providerError (parsedMsg.getD raw) "cohere" (some status)

/-- `HuggingFaceProvider._handle_http_error` (503 is the distinct
"model loading" provider error). -/
def huggingface_handle_http_error (status : Nat) (parsedMsg : Option String) (raw : String) : PyErr :=
  if status = 401 then .authenticationError "Invalid HuggingFace token" "huggingface"
  else if status = 429 then .rateLimitError "Rate limit exceeded" "huggingface"
  else if status = 503 then
    .providerError "Model is currently loading, please try again later" "huggingface" (some status)
  else .providerError (parsedMsg.getD raw) "huggingface" (some status)

/-- Modelled from the spec: `providers/grok.py` is imported by the provider
registry but its file is not among the sources; spec section 4.3 maps
"grok"/"xai" to an OpenAI-style ("Grok-style") adapter and section 4.4
gives every variant the same error translation, HTTP 401 to
`AuthenticationError` and HTTP 429 to `RateLimitError`. -/
def grok_handle_http_error (status : Nat) (parsedMsg : Option String) (raw : String) : PyErr :=
  if status = 401 then .authenticationError "Invalid API key" "grok"
  else if status = 429 then .rateLimitError "Rate limit exceeded" "grok"
  else .providerError (parsedMsg.getD raw) "grok" (some status)

/-! ## Provider registry (`providers/__init__.py`) -/

/-- `_PROVIDERS`: insertion-ordered name-to-adapter-class table, aliases
included. -/
def providersTable : List (String × String) :=
  [("openai", "OpenAIProvider"), ("azure", "OpenAIProvider"),
   ("claude", "ClaudeProvider"), ("anthropic", "ClaudeProvider"),
   ("grok", "GrokProvider"), ("xai", "GrokProvider"),
   ("cohere", "CohereProvider"),
   ("huggingface", "HuggingFaceProvider"), ("hf", "HuggingFaceProvider")]

/-- Python `str.lower()` (agrees with `Char.toLower` on the ASCII provider
names the table holds). -/
def pyLower (s : String) : String := String.mk (s.data.map Char.toLower)

/-- The joined `", ".join(_PROVIDERS.keys())` listing. -/
def availableProviders : String :=
  String.mk (joinSep ", ".data (providersTable.map fun p => p.1.data))

/-- `get_provider`: lower-case the name, look it up, and raise
`ConfigurationError` naming all providers when absent.  The adapter itself
is represented by its class name. -/
def get_provider (name : String) : Except PyErr String :=
  let n := pyLower name
  match providersTable.lookup n with
  | some cls => .ok cls
  | none =>
    .error (.configurationError
      ("Provider '" ++ n ++ "' not supported. Available providers: " ++ availableProviders))

/-! ## Retry policy (`tenacity.retry` on every adapter `generate`)

Each adapter's `generate` is decorated with
`@retry(stop=stop_after_attempt(3), wait=wait_exponential(...), reraise=True)`
and no `retry=` predicate, so tenacity's default (retry on any `Exception`)
applies.  `retryCall f i fuel` runs attempt `i` with `fuel` attempts still
allowed: on success it stops, on an exception it retries while attempts
remain and re-raises the last exception otherwise (`reraise=True`). -/

/-- The tenacity driver: attempts are `f i`, `f (i+1)`, ... while fuel
lasts; the final attempt's error is surfaced as-is. -/
def retryCall (f : Nat → Except ε α) : Nat → Nat → Except ε α
  | i, 0 => f i
  | i, 1 => f i
  | i, fuel + 2 =>
    match f i with
    | .ok a => .ok a
    | .error _ => retryCall f (i + 1) (fuel + 1)

/-- How many attempts the driver performs. -/
def retryCount (f : Nat → Except ε α) : Nat → Nat → Nat
  | _, 0 => 1
  | _, 1 => 1
  | i, fuel + 2 =>
    match f i with
    | .ok _ => 1
    | .error _ => 1 + retryCount f (i + 1) (fuel + 1)

/-- `stop_after_attempt(3)`. -/
def stop_attempts : Nat := 3

/-- One execution of the undecorated `OpenAIProvider.generate` body, given
its HTTP outcome: `raise_for_status` failures go through
`_handle_http_error`, transport failures propagate untyped. -/
def openai_attempt : HTTPOutcome → Except PyErr Response
  | .success r => .ok r
  | .httpError st pm raw => .error (openai_handle_http_error st pm raw)
  | .transportFailure raw => .error (.transportError raw)

/-- The decorated `OpenAIProvider.generate`: the tenacity driver over the
body, attempt `i` observing `outcomes i`. -/
def openai_generate_retried (outcomes : Nat → HTTPOutcome) : Except PyErr Response :=
  retryCall (fun i => openai_attempt (outcomes i)) 0 stop_attempts

/-- Number of attempts the decorated `generate` performs. -/
def openai_generate_attemptCount (outcomes : Nat → HTTPOutcome) : Nat :=
  retryCount (fun i => openai_attempt (outcomes i)) 0 stop_attempts

/-! ## Dispatcher fallback (`core.py`, `LLMGenerator.generate` /
`_try_fallback`)

Each provider attempt (resolving the fallback adapter and running its
`generate`) is abstracted as an `Except` outcome.  `_try_fallback` swallows
every fallback failure with `continue`; its final bare `raise` re-raises
the exception currently being handled, which is the primary provider's
exception (each fallback's exception stopped being "current" when its
`except` block was left), not the last fallback's. -/

/-- `LLMGenerator._try_fallback`, called while the primary's exception
`primaryErr` is being handled. -/
def try_fallback (primaryErr : ε) : List (Except ε α) → Except ε α
  | [] => .error primaryErr
  | .ok a :: _ => .ok a
  | .error _ :: rest => try_fallback primaryErr rest

/-- The non-streaming error path of `LLMGenerator.generate`: on primary
failure, fall back when fallbacks are configured, else re-raise. -/
def generate_result (primary : Except ε α) (fallbacks : List (Except ε α)) : Except ε α :=
  match primary with
  | .ok a => .ok a
  | .error e => if fallbacks.isEmpty then .error e else try_fallback e fallbacks

/-! ## Streaming path of the Dispatcher (`core.py`)

`_generate_stream` is a Python generator function: calling it only creates
the generator, so `return self._generate_stream(...)` inside the `try`
cannot raise; the body (and any provider error) runs only when the caller
iterates, outside the `try`/`except` that would trigger `_try_fallback`. -/

/-- What a consumer observes from one provider stream: the chunks emitted,
then optionally an error raised mid-iteration (an error before the first
chunk is `⟨[], some e⟩`). -/
structure PyStream (ε : Type) where
  chunks : List StreamChunk
  err : Option ε
deriving DecidableEq, Repr

/-- Calling a generator function: the body is packaged unevaluated; the
call itself always succeeds. -/
def makeGenerator (body : Unit → PyStream ε) : Except ε (Unit → PyStream ε) :=
  .ok body

/-- The `stream=True` branch of `LLMGenerator.generate` (lines 117-134):
the `try` block returns the lazy generator; only if its creation raised
would the `except` branch run `_try_fallback`, whose fallback attempts
call the blocking `generate` and hence would produce a plain `Response`.
-/
def generate_stream_entry (fallbacks : List (Except ε Response))
    (primaryBody : Unit → PyStream ε) : Except ε ((Unit → PyStream ε) ⊕ Response) :=
  match makeGenerator primaryBody with
  | .ok gen => .ok (.inl gen)
  | .error e => if fallbacks.isEmpty then .error e else (try_fallback e fallbacks).map .inr

/-- Iterating the returned generator (`yield from
self.provider.generate_stream(...)` adds nothing of its own). -/
def consumeStream (g : Unit → PyStream ε) : PyStream ε := g ()

/-! ## Cache storage and the cache-hit path (`cache.py` get/set/clear,
`core.py` lines 109-115)

`Response` objects are mutable pydantic models; the in-memory cache stores
object references, so the dispatcher's `cached_response.cached = True` on
a hit mutates the very object the cache holds.  The heap maps references
to current `Response` values; `_memory_cache` maps keys to references. -/

/-- The Python heap of live `Response` objects. -/
def Heap := List (Nat × Response)

/-- Attribute assignment `obj.cached = True` on the object behind `ref`. -/
def heapUpdate (heap : Heap) (ref : Nat) (f : Response → Response) : Heap :=
  heap.map fun p => if p.1 = ref then (p.1, f p.2) else p

/-- Read the object behind a reference. -/
def heapGet (heap : Heap) (ref : Nat) : Option Response :=
  heap.lookup ref

/-- `CacheManager.get` with no Redis client: `None` when disabled, else
`self._memory_cache.get(key)`; returns the stored object (reference). -/
def cmGet (cfg : CacheConfig) (mem : List (String × Nat)) (key : String) : Option Nat :=
  if cfg.enabled then mem.lookup key else none

/-- `CacheManager.set` with no Redis client: a no-op when disabled, else
`self._memory_cache[key] = response` (the reference, not a copy). -/
def cmSet (cfg : CacheConfig) (mem : List (String × Nat)) (key : String) (ref : Nat) :
    List (String × Nat) :=
  if cfg.enabled then (key, ref) :: mem else mem

/-- `CacheManager.clear` with no Redis client: a no-op when disabled, else
`self._memory_cache.clear()`. -/
def cmClear (cfg : CacheConfig) (mem : List (String × Nat)) : List (String × Nat) :=
  if cfg.enabled then [] else mem

/-- `CacheManager.get` as the caller sees it: the `Response` value behind
the returned reference. -/
def cmGetResp (cfg : CacheConfig) (mem : List (String × Nat)) (heap : Heap)
    (key : String) : Option Response :=
  (cmGet cfg mem key).bind (heapGet heap)

/-- A sequence of `set` calls. -/
def cmSets (cfg : CacheConfig) (mem : List (String × Nat)) :
    List (String × Nat) → List (String × Nat)
  | [] => mem
  | (k, r) :: rest => cmSets cfg (cmSet cfg mem k r) rest

/-- The cache-hit path of `LLMGenerator.generate` (`use_cache=True`,
`stream=False`): on a hit, set `cached = True` on the object the cache
returned (mutating it in place) and return its reference; on a miss,
leave the heap alone. -/
def serve_cache_hit (cfg : CacheConfig) (heap : Heap) (mem : List (String × Nat))
    (key : String) : Heap × Option Nat :=
  match cmGet cfg mem key with
  | none => (heap, none)
  | some ref => (heapUpdate heap ref (fun r => { r with cached := true }), some ref)

/-! ## HuggingFace simulated streaming and response parsing
(`providers/huggingface.py`) -/

/-- `HuggingFaceProvider.generate_stream` lines 155-166 (and identically
`async_generate_stream`): slice the completed content into 10-character
chunks, marking the final slice `done=True`; the loop body never runs for
empty content. -/
def hfStreamChunks (content : List Char) : List StreamChunk :=
  if content = [] then []
  else
    let rest := content.drop 10
    ⟨String.mk (content.take 10), if rest.isEmpty then some "stop" else none, rest.isEmpty⟩ ::
      hfStreamChunks rest
termination_by content.length
decreasing_by
  rename_i h
  have hpos : 0 < content.length := List.length_pos.mpr h
  simp only [List.length_drop]
  omega

/-- Python `str.isspace` characters (what `str.strip()` and `str.split()`
with no argument strip/split on). -/
def pyWhitespace (c : Char) : Bool :=
  c.toNat ∈ ([0x09, 0x0a, 0x0b, 0x0c, 0x0d, 0x1c, 0x1d, 0x1e, 0x1f, 0x20,
              0x85, 0xa0, 0x1680, 0x2000, 0x2001, 0x2002, 0x2003, 0x2004, 0x2005,
              0x2006, 0x2007, 0x2008, 0x2009, 0x200a, 0x2028, 0x2029, 0x202f,
              0x205f, 0x3000] : List Nat)

/-- Python `str.strip()`. -/
def pyStrip (l : List Char) : List Char :=
  ((l.dropWhile pyWhitespace).reverse.dropWhile pyWhitespace).reverse

/-- Number of words of Python `len(s.split())` (maximal non-whitespace
runs). -/
def pyWordCount (l : List Char) : Nat :=
  if l.dropWhile pyWhitespace = [] then 0
  else 1 + pyWordCount ((l.dropWhile pyWhitespace).dropWhile fun c => ! pyWhitespace c)
termination_by l.length
decreasing_by
  rename_i h
  have hd := List.head_dropWhile_not pyWhitespace l h
  have hcons := List.head_cons_tail (l.dropWhile pyWhitespace) h
  have h2 : ((l.dropWhile pyWhitespace).dropWhile fun c => ! pyWhitespace c) =
      ((l.dropWhile pyWhitespace).tail.dropWhile fun c => ! pyWhitespace c) := by
    conv_lhs => rw [← hcons]
    rw [List.dropWhile_cons]
    simp [hd]
  have h3 := (List.dropWhile_sublist (l := (l.dropWhile pyWhitespace).tail)
    fun c => ! pyWhitespace c).length_le
  have h4 := (List.dropWhile_sublist (l := l) pyWhitespace).length_le
  have h5 : (l.dropWhile pyWhitespace).tail.length = (l.dropWhile pyWhitespace).length - 1 :=
    List.length_tail _
  have h6 : 0 < (l.dropWhile pyWhitespace).length := List.length_pos.mpr h
  rw [h2]
  omega

/-- `HuggingFaceProvider._convert_messages_to_hf`: label each message,
append a bare `Assistant:` prompt when the last part does not already
start with one, join with newlines. -/
def convert_messages_to_hf (messages : List Message) : List Char :=
  let parts : List (List Char) := messages.map fun m =>
    (match m.role with
     | .system => "System: "
     | .user => "Human: "
     | .assistant => "Assistant: ").data ++ m.content.data
  let needTail : Bool :=
    match parts.getLast? with
    | none => true
    | some lst => ! ("Assistant:".data.isPrefixOf lst)
  joinSep "\n".data (if needTail then parts ++ ["Assistant:".data] else parts)

/-- Lines 216-220 of `HuggingFaceProvider._parse_response`: strip the
echoed prompt when the generation starts with it. -/
def hf_extract_content (generated_text input_text : List Char) : List Char :=
  if input_text.isPrefixOf generated_text then pyStrip (generated_text.drop input_text.length)
  else generated_text

/-- `HuggingFaceProvider._parse_response` on the common backend shape (a
non-empty list whose first element carries `generated_text`). -/
def hf_parse_response (generated_text : List Char) (model : String)
    (input_text : List Char) : Response :=
  let content := hf_extract_content generated_text input_text
  { text := [⟨String.mk content, some "stop"⟩],
    usage := some ⟨pyWordCount input_text, pyWordCount content,
                   (pyWordCount input_text : Int) + pyWordCount content⟩,
    provider := "huggingface", model := model, cached := false }

/-! ## Claude message translation (`providers/claude.py`, lines 78-101) -/

/-- The message-conversion loop of `ClaudeProvider.generate`: every
`system` message overwrites `system_message` and is dropped from
`claude_messages`; other messages pass through in order. -/
def claude_convert (messages : List Message) : Option String × List (Role × String) :=
  messages.foldl
    (fun acc m =>
      match m.role with
      | .system => (some m.content, acc.2)
      | _ => (acc.1, acc.2 ++ [(m.role, m.content)]))
    ((none : Option String), ([] : List (Role × String)))

/-- The payload's `system` field: `if system_message:` is Python
truthiness, so an empty extracted content is omitted. -/
def claude_payload_system (sys : Option String) : Option String :=
  match sys with
  | some s => if s = "" then none else some s
  | none => none

/-- Modelled from the claim's words, for the refutation: a leading
`system` message (and only a leading one) moves to the top-level field;
everything else stays in the messages list in order. -/
def claude_convert_spec (messages : List Message) : Option String × List (Role × String) :=
  match messages with
  | ⟨.system, c⟩ :: rest => (some c, rest.map fun m => (m.role, m.content))
  | _ => (none, messages.map fun m => (m.role, m.content))

/-- The content of the last `system` message, which is what the loop
leaves in `system_message`. -/
def lastSystemContent (messages : List Message) : Option String :=
  (messages.filterMap fun m =>
    match m.role with
    | .system => some m.content
    | _ => none).getLast?

/-- The non-`system` messages as role/content pairs, in order. -/
def nonSystemPairs (messages : List Message) : List (Role × String) :=
  (messages.filter fun m => decide (m.role ≠ .system)).map fun m => (m.role, m.content)

/-! # Theorems

First the supporting lemmas, then one named theorem per claim (with its
witness or counterexample). -/

/-! ## Lemmas: the cache-key serialization has a left inverse -/

theorem dropLit_append (lit rest : List Char) : dropLit lit (lit ++ rest) = some rest := by
  induction lit with
  | nil => rfl
  | cons c cs ih => simp [dropLit, ih]

theorem hexDigitChar_ne (n : Nat) : hexDigitChar n ≠ '"' ∧ hexDigitChar n ≠ '\\' := by
  unfold hexDigitChar
  split_ifs with h
  · have hv : (48 + n).isValidChar := by unfold Nat.isValidChar; omega
    have ht : (Char.ofNat (48 + n)).toNat = 48 + n := by
      simp [Char.ofNat, hv, Char.toNat, Char.ofNatAux, UInt32.toNat]
    constructor <;>
      · intro heq
        rw [heq] at ht
        simp only [show ('"' : Char).toNat = 34 from by decide,
          show ('\\' : Char).toNat = 92 from by decide] at ht
        omega
  · by_cases hv : (87 + n).isValidChar
    · have ht : (Char.ofNat (87 + n)).toNat = 87 + n := by
        simp [Char.ofNat, hv, Char.toNat, Char.ofNatAux, UInt32.toNat]
      constructor <;>
        · intro heq
          rw [heq] at ht
          simp only [show ('"' : Char).toNat = 34 from by decide,
            show ('\\' : Char).toNat = 92 from by decide] at ht
          omega
    · have ht : (Char.ofNat (87 + n)).toNat = 0 := by
        simp [Char.ofNat, hv, Char.toNat, UInt32.toNat]
      constructor <;>
        · intro heq
          rw [heq] at ht
          simp only [show ('"' : Char).toNat = 34 from by decide,
            show ('\\' : Char).toNat = 92 from by decide] at ht
          omega

theorem hexDigitVal_hexDigitChar : ∀ d < 16, hexDigitVal (hexDigitChar d) = some d := by
  decide

theorem scanStr_quote (rest : List Char) : scanStr ('"' :: rest) = some ([], rest) := by
  unfold scanStr
  simp

theorem scanStr_esc (d : Char) (t : List Char) :
    scanStr ('\\' :: d :: t) = (scanStr t).map fun p => ('\\' :: d :: p.1, p.2) := by
  conv_lhs => unfold scanStr
  simp

theorem scanStr_safe (c : Char) (t : List Char) (h1 : c ≠ '"') (h2 : c ≠ '\\') :
    scanStr (c :: t) = (scanStr t).map fun p => (c :: p.1, p.2) := by
  conv_lhs => unfold scanStr
  simp [h1, h2]

theorem escChar_shape (c : Char) :
    (∃ d, escChar c = ['\\', d]) ∨
    (∃ n, escChar c = '\\' :: 'u' :: hex4 n) ∨
    (∃ m n, escChar c = ('\\' :: 'u' :: hex4 m) ++ ('\\' :: 'u' :: hex4 n)) ∨
    (escChar c = [c] ∧ c ≠ '"' ∧ c ≠ '\\') := by
  by_cases h1 : c = '\\'
  · exact .inl ⟨'\\', by simp [escChar, h1]⟩
  by_cases h2 : c = '"'
  · exact .inl ⟨'"', by simp [escChar, h1, h2]⟩
  by_cases h3 : c = '\x08'
  · exact .inl ⟨'b', by simp [escChar, h1, h2, h3]⟩
  by_cases h4 : c = '\x0c'
  · exact .inl ⟨'f', by simp [escChar, h1, h2, h3, h4]⟩
  by_cases h5 : c = '\n'
  · exact .inl ⟨'n', by simp [escChar, h1, h2, h3, h4, h5]⟩
  by_cases h6 : c = '\r'
  · exact .inl ⟨'r', by simp [escChar, h1, h2, h3, h4, h5, h6]⟩
  by_cases h7 : c = '\t'
  · exact .inl ⟨'t', by simp [escChar, h1, h2, h3, h4, h5, h6, h7]⟩
  by_cases h8 : c.toNat < 32 ∨ 126 < c.toNat
  · by_cases h9 : c.toNat < 65536
    · exact .inr (.inl ⟨c.toNat, by simp [escChar, h1, h2, h3, h4, h5, h6, h7, h8, h9]⟩)
    · exact .inr (.inr (.inl ⟨55296 + (c.toNat - 65536) / 1024,
        56320 + (c.toNat - 65536) % 1024,
        by simp [escChar, h1, h2, h3, h4, h5, h6, h7, h8, h9]⟩))
  · exact .inr (.inr (.inr
      ⟨by simp [escChar, h1, h2, h3, h4, h5, h6, h7, h8], h2, h1⟩))

theorem scanStr_escChar (c : Char) (t : List Char) :
    scanStr (escChar c ++ t) = (scanStr t).map fun p => (escChar c ++ p.1, p.2) := by
  have hq : ∀ n : Nat, hexDigitChar n ≠ '"' := fun n => (hexDigitChar_ne n).1
  have hb : ∀ n : Nat, hexDigitChar n ≠ '\\' := fun n => (hexDigitChar_ne n).2
  rcases escChar_shape c with ⟨d, hsh⟩ | ⟨n, hsh⟩ | ⟨m, n, hsh⟩ | ⟨hsh, hq', hb'⟩ <;> rw [hsh]
  · simp only [List.cons_append, List.nil_append]
    rw [scanStr_esc]
  · simp only [hex4, List.cons_append, List.nil_append]
    rw [scanStr_esc, scanStr_safe _ _ (hq _) (hb _), scanStr_safe _ _ (hq _) (hb _),
        scanStr_safe _ _ (hq _) (hb _), scanStr_safe _ _ (hq _) (hb _)]
    cases hp : scanStr t <;> simp [hp, hex4]
  · simp only [hex4, List.cons_append, List.nil_append]
    rw [scanStr_esc, scanStr_safe _ _ (hq _) (hb _), scanStr_safe _ _ (hq _) (hb _),
        scanStr_safe _ _ (hq _) (hb _), scanStr_safe _ _ (hq _) (hb _),
        scanStr_esc, scanStr_safe _ _ (hq _) (hb _), scanStr_safe _ _ (hq _) (hb _),
        scanStr_safe _ _ (hq _) (hb _), scanStr_safe _ _ (hq _) (hb _)]
    cases hp : scanStr t <;> simp [hp, hex4]
  · simp only [List.cons_append, List.nil_append]
    rw [scanStr_safe _ _ hq' hb']

theorem scanStr_escape (s rest : List Char) :
    scanStr (escape s ++ '"' :: rest) = some (escape s, rest) := by
  induction s with
  | nil => simpa [escape] using scanStr_quote rest
  | cons c cs ih =>
    have he : escape (c :: cs) = escChar c ++ escape cs := by simp [escape]
    rw [he, List.append_assoc, scanStr_escChar, ih]
    simp

theorem scanQuoted_quoteStr (s : String) (rest : List Char) :
    scanQuoted (quoteStr s ++ rest) = some (escape s.data, rest) := by
  have : quoteStr s ++ rest = '"' :: (escape s.data ++ '"' :: rest) := by
    simp [quoteStr]
  rw [this, scanQuoted, scanStr_escape]

theorem hexVal4_hex4 (n : Nat) (h : n < 65536) :
    hexVal4 (hexDigitChar (n / 4096 % 16)) (hexDigitChar (n / 256 % 16))
      (hexDigitChar (n / 16 % 16)) (hexDigitChar (n % 16)) = some n := by
  have e1 := hexDigitVal_hexDigitChar (n / 4096 % 16) (Nat.mod_lt _ (by norm_num))
  have e2 := hexDigitVal_hexDigitChar (n / 256 % 16) (Nat.mod_lt _ (by norm_num))
  have e3 := hexDigitVal_hexDigitChar (n / 16 % 16) (Nat.mod_lt _ (by norm_num))
  have e4 := hexDigitVal_hexDigitChar (n % 16) (Nat.mod_lt _ (by norm_num))
  simp [hexVal4, e1, e2, e3, e4]
  omega

theorem char_valid_nat (c : Char) :
    c.toNat < 55296 ∨ 57343 < c.toNat ∧ c.toNat < 1114112 := c.valid

theorem unescape_escChar (c : Char) (t : List Char) :
    unescapeList (escChar c ++ t) = (unescapeList t).map (c :: ·) := by
  by_cases h1 : c = '\\'
  · subst h1
    rw [show escChar '\\' = ['\\', '\\'] from by simp [escChar]]
    conv_lhs => unfold unescapeList
    simp [unescCtrl]
  by_cases h2 : c = '"'
  · subst h2
    rw [show escChar '"' = ['\\', '"'] from by simp [escChar]]
    conv_lhs => unfold unescapeList
    simp [unescCtrl]
  by_cases h3 : c = '\x08'
  · subst h3
    rw [show escChar '\x08' = ['\\', 'b'] from by simp [escChar]]
    conv_lhs => unfold unescapeList
    simp [unescCtrl]
  by_cases h4 : c = '\x0c'
  · subst h4
    rw [show escChar '\x0c' = ['\\', 'f'] from by simp [escChar]]
    conv_lhs => unfold unescapeList
    simp [unescCtrl]
  by_cases h5 : c = '\n'
  · subst h5
    rw [show escChar '\n' = ['\\', 'n'] from by simp [escChar]]
    conv_lhs => unfold unescapeList
    simp [unescCtrl]
  by_cases h6 : c = '\r'
  · subst h6
    rw [show escChar '\r' = ['\\', 'r'] from by simp [escChar]]
    conv_lhs => unfold unescapeList
    simp [unescCtrl]
  by_cases h7 : c = '\t'
  · subst h7
    rw [show escChar '\t' = ['\\', 't'] from by simp [escChar]]
    conv_lhs => unfold unescapeList
    simp [unescCtrl]
  by_cases h8 : c.toNat < 32 ∨ 126 < c.toNat
  · by_cases h9 : c.toNat < 65536
    · have hesc : escChar c = '\\' :: 'u' :: hex4 c.toNat := by
        simp [escChar, h1, h2, h3, h4, h5, h6, h7, h8, h9]
      rw [hesc]
      simp only [hex4, List.cons_append, List.nil_append]
      conv_lhs => unfold unescapeList
      have hns : ¬(55296 ≤ c.toNat ∧ c.toNat ≤ 56319) := by
        rcases char_valid_nat c with h | ⟨h, _⟩ <;> omega
      simp [hexVal4_hex4 c.toNat h9, hns, Char.ofNat_toNat]
    · have hlt : c.toNat < 1114112 := by
        rcases char_valid_nat c with h | ⟨_, h⟩ <;> omega
      have hesc : escChar c =
          ('\\' :: 'u' :: hex4 (55296 + (c.toNat - 65536) / 1024)) ++
          ('\\' :: 'u' :: hex4 (56320 + (c.toNat - 65536) % 1024)) := by
        simp [escChar, h1, h2, h3, h4, h5, h6, h7, h8, h9]
      rw [hesc]
      have hdiv : (c.toNat - 65536) / 1024 < 1024 := by omega
      have hmod : (c.toNat - 65536) % 1024 < 1024 := by omega
      have hhi : 55296 + (c.toNat - 65536) / 1024 < 65536 := by omega
      have hlo : 56320 + (c.toNat - 65536) % 1024 < 65536 := by omega
      simp only [hex4, List.cons_append, List.nil_append]
      conv_lhs => unfold unescapeList
      have hsur : 55296 ≤ 55296 + (c.toNat - 65536) / 1024 ∧
          55296 + (c.toNat - 65536) / 1024 ≤ 56319 := by omega
      have hsur2 : 56320 ≤ 56320 + (c.toNat - 65536) % 1024 ∧
          56320 + (c.toNat - 65536) % 1024 ≤ 57343 := by omega
      simp only [hexVal4_hex4 _ hhi, hexVal4_hex4 _ hlo, hsur.1, hsur.2, hsur2.1, hsur2.2,
        and_self, if_true, ite_true]
      rw [show (65536 + (55296 + (c.toNat - 65536) / 1024 - 55296) * 1024 +
          (56320 + (c.toNat - 65536) % 1024 - 56320)) = c.toNat from by omega,
        Char.ofNat_toNat]
  · have hesc : escChar c = [c] := by
      simp [escChar, h1, h2, h3, h4, h5, h6, h7, h8]
    rw [hesc]
    simp only [List.cons_append, List.nil_append]
    conv_lhs => unfold unescapeList
    simp [h1]

theorem unescape_escape (s : List Char) : unescapeList (escape s) = some s := by
  induction s with
  | nil => rfl
  | cons c cs ih =>
    have he : escape (c :: cs) = escChar c ++ escape cs := by simp [escape]
    rw [he, unescape_escChar, ih]
    rfl

theorem escape_injective : Function.Injective escape := by
  intro a b h
  have ha := unescape_escape a
  rw [h, unescape_escape b] at ha
  exact (Option.some.inj ha).symm

theorem natChars_digits (n : Nat) : ∀ c ∈ natChars n, c.isDigit = true := by
  unfold natChars
  split_ifs with h
  · intro c hc
    simp at hc
    subst hc
    decide
  · intro c hc
    simp only [List.mem_reverse, List.mem_map] at hc
    obtain ⟨d, hd, rfl⟩ := hc
    have hd10 : d < 10 := Nat.digits_lt_base (by norm_num) hd
    exact (by decide : ∀ d < 10, (Char.ofNat (48 + d)).isDigit = true) d hd10

theorem natChars_ne_nil (n : Nat) : natChars n ≠ [] := by
  unfold natChars
  split_ifs with h
  · simp
  · simp [Nat.digits_eq_nil_iff_eq_zero, h]

theorem map_digitChar_inj : ∀ l1 l2 : List Nat, (∀ d ∈ l1, d < 10) → (∀ d ∈ l2, d < 10) →
    l1.map (fun d => Char.ofNat (48 + d)) = l2.map (fun d => Char.ofNat (48 + d)) → l1 = l2 := by
  intro l1
  induction l1 with
  | nil =>
    intro l2 _ _ h
    cases l2 with
    | nil => rfl
    | cons d t => simp at h
  | cons d t ih =>
    intro l2 h1 h2 h
    cases l2 with
    | nil => simp at h
    | cons d2 t2 =>
      simp only [List.map_cons, List.cons.injEq] at h
      obtain ⟨hd, ht⟩ := h
      have hdd : d = d2 :=
        (by decide : ∀ x < 10, ∀ y < 10, Char.ofNat (48 + x) = Char.ofNat (48 + y) → x = y)
          d (h1 d (by simp)) d2 (h2 d2 (by simp)) hd
      subst hdd
      rw [ih t2 (fun x hx => h1 x (by simp [hx])) (fun x hx => h2 x (by simp [hx])) ht]

theorem natChars_injective : Function.Injective natChars := by
  have single : ∀ b : Nat, b ≠ 0 →
      ((Nat.digits 10 b).map fun d => Char.ofNat (48 + d)).reverse = ['0'] → False := by
    intro b hb h
    have h' : (Nat.digits 10 b).map (fun d => Char.ofNat (48 + d)) = ['0'] := by
      have := congrArg List.reverse h
      simpa using this
    have hdig : Nat.digits 10 b = [0] := by
      have := map_digitChar_inj (Nat.digits 10 b) [0]
        (fun d hd => Nat.digits_lt_base (by norm_num) hd) (by simp) (by simpa using h')
      exact this
    have : b = 0 := by
      have := Nat.ofDigits_digits 10 b
      rw [hdig] at this
      simpa [Nat.ofDigits] using this.symm
    exact hb this
  intro a b h
  unfold natChars at h
  split_ifs at h with ha hb
  · rw [ha, hb]
  · exact absurd (single b hb h.symm) not_false
  · exact absurd (single a ha h) not_false
  · have hdig := map_digitChar_inj (Nat.digits 10 a) (Nat.digits 10 b)
      (fun d hd => Nat.digits_lt_base (by norm_num) hd)
      (fun d hd => Nat.digits_lt_base (by norm_num) hd)
      (by have := congrArg List.reverse h; simpa using this)
    calc a = Nat.ofDigits 10 (Nat.digits 10 a) := (Nat.ofDigits_digits 10 a).symm
      _ = Nat.ofDigits 10 (Nat.digits 10 b) := by rw [hdig]
      _ = b := Nat.ofDigits_digits 10 b

theorem intChars_numTok (i : Int) : ∀ c ∈ intChars i, numTokChar c = true := by
  cases i with
  | ofNat n =>
    intro c hc
    simp [numTokChar, natChars_digits n c hc]
  | negSucc n =>
    intro c hc
    rcases List.mem_cons.mp hc with h | h
    · subst h; decide
    · simp [numTokChar, natChars_digits (n + 1) c h]

theorem intChars_ne_nil (i : Int) : intChars i ≠ [] := by
  cases i with
  | ofNat n => exact natChars_ne_nil n
  | negSucc n => simp [intChars]

theorem intChars_injective : Function.Injective intChars := by
  have neg_absurd : ∀ (a b : Nat), natChars a = '-' :: natChars (b + 1) → False := by
    intro a b h
    have hmem : '-' ∈ natChars a := h ▸ List.mem_cons_self '-' _
    have := natChars_digits a '-' hmem
    simp at this
  intro a b h
  cases a with
  | ofNat m =>
    cases b with
    | ofNat n => rw [natChars_injective h]
    | negSucc n => exact absurd (neg_absurd m n h) not_false
  | negSucc m =>
    cases b with
    | ofNat n => exact absurd (neg_absurd n m h.symm) not_false
    | negSucc n =>
      have h2 := natChars_injective (List.cons.inj h).2
      have hmn : m = n := by omega
      rw [hmn]

theorem takeWhile_append_of (p : Char → Bool) (l1 l2 : List Char)
    (h1 : ∀ c ∈ l1, p c = true) (h2 : ∀ c, l2.head? = some c → p c = false) :
    (l1 ++ l2).takeWhile p = l1 ∧ (l1 ++ l2).dropWhile p = l2 := by
  induction l1 with
  | nil =>
    cases l2 with
    | nil => simp
    | cons c t =>
      have := h2 c rfl
      simp [List.takeWhile_cons, List.dropWhile_cons, this]
  | cons c t ih =>
    have hc := h1 c (by simp)
    have iht := ih fun x hx => h1 x (by simp [hx])
    simp [List.takeWhile_cons, List.dropWhile_cons, hc, iht.1, iht.2]

theorem numTokChar_u : numTokChar 'u' = false := by decide

theorem scanOptNum_null (rest : List Char) :
    scanOptNum ("null".data ++ rest) = some (none, rest) := by
  unfold scanOptNum
  rw [dropLit_append]

theorem dropLit_null_fails (tok rest : List Char) (h0 : tok ≠ [])
    (hcls : ∀ c ∈ tok, numTokChar c = true)
    (hrest : rest.head? = some ',' ∨ rest.head? = some '\x7d') :
    dropLit "null".data (tok ++ rest) = none := by
  obtain ⟨c, t2, rfl⟩ := List.exists_cons_of_ne_nil h0
  have hstep : dropLit "null".data ((c :: t2) ++ rest) =
      if 'n' = c then dropLit ['u', 'l', 'l'] (t2 ++ rest) else none := rfl
  rw [hstep]
  by_cases hc : 'n' = c
  · rw [if_pos hc]
    cases t2 with
    | nil =>
      cases rest with
      | nil => rfl
      | cons d r =>
        have hd : d = ',' ∨ d = '\x7d' := by
          rcases hrest with h | h <;> simp at h <;> simp [h]
        have hstep2 : dropLit ['u', 'l', 'l'] (([] : List Char) ++ d :: r) =
            if 'u' = d then dropLit ['l', 'l'] r else none := rfl
        rw [hstep2]
        rcases hd with rfl | rfl <;> rw [if_neg (by decide)]
    | cons c2 t3 =>
      have hc2 : numTokChar c2 = true := hcls c2 (by simp)
      have hne : ¬ ('u' = c2) := by
        intro he
        rw [← he, numTokChar_u] at hc2
        exact Bool.false_ne_true hc2
      have hstep2 : dropLit ['u', 'l', 'l'] ((c2 :: t3) ++ rest) =
          if 'u' = c2 then dropLit ['l', 'l'] (t3 ++ rest) else none := rfl
      rw [hstep2, if_neg hne]
  · rw [if_neg hc]

theorem scanOptNum_tok (tok rest : List Char) (h0 : tok ≠ [])
    (hcls : ∀ c ∈ tok, numTokChar c = true)
    (hrest : rest.head? = some ',' ∨ rest.head? = some '\x7d') :
    scanOptNum (tok ++ rest) = some (some tok, rest) := by
  have hrf : ∀ c, rest.head? = some c → numTokChar c = false := by
    intro c hc
    rcases hrest with h | h <;> rw [hc] at h <;>
      · injection h with h
        rw [h]
        decide
  have hspan := takeWhile_append_of numTokChar tok rest hcls hrf
  unfold scanOptNum
  rw [dropLit_null_fails tok rest h0 hcls hrest]
  obtain ⟨c, t2, rfl⟩ := List.exists_cons_of_ne_nil h0
  rw [hspan.1, hspan.2]

theorem scanOptStr_null (rest : List Char) :
    scanOptStr ("null".data ++ rest) = some (none, rest) := by
  unfold scanOptStr
  rw [dropLit_append]

theorem scanOptStr_str (s : String) (rest : List Char) :
    scanOptStr (quoteStr s ++ rest) = some (some (escape s.data), rest) := by
  have hq : quoteStr s ++ rest = '"' :: (escape s.data ++ '"' :: rest) := by
    simp [quoteStr]
  have hnull : dropLit "null".data (quoteStr s ++ rest) = none := by
    rw [hq, show ("null".data : List Char) = 'n' :: "ull".data from rfl]
    simp [dropLit]
  unfold scanOptStr
  rw [hnull, scanQuoted_quoteStr]
  rfl

theorem scanOptNum_optEnc_int (o : Option Int) (rest : List Char)
    (hrest : rest.head? = some ',' ∨ rest.head? = some '\x7d') :
    scanOptNum (optEnc intChars o ++ rest) = some (o.map intChars, rest) := by
  cases o with
  | none => exact scanOptNum_null rest
  | some i =>
    exact scanOptNum_tok (intChars i) rest (intChars_ne_nil i) (intChars_numTok i) hrest

theorem scanOptNum_optEnc_float (o : Option PyFloat) (rest : List Char)
    (hrest : rest.head? = some ',' ∨ rest.head? = some '\x7d') :
    scanOptNum (optEnc PyFloat.tok o ++ rest) = some (o.map PyFloat.tok, rest) := by
  cases o with
  | none => exact scanOptNum_null rest
  | some f => exact scanOptNum_tok f.tok rest f.ok.1 f.ok.2 hrest

theorem scanOptStr_optEnc (o : Option String) (rest : List Char) :
    scanOptStr (optEnc quoteStr o ++ rest) = some (o.map (fun s => escape s.data), rest) := by
  cases o with
  | none => exact scanOptStr_null rest
  | some s => exact scanOptStr_str s rest

theorem scanMsg_msgEnc (m : Message) (rest : List Char) :
    scanMsg (msgEnc m ++ rest) =
      some ((escape m.content.data, escape (Role.str m.role).data), rest) := by
  have halign : msgEnc m ++ rest =
      "\x7b\"content\": ".data ++ (quoteStr m.content ++ (", \"role\": ".data ++
        (quoteStr (Role.str m.role) ++ ("\x7d".data ++ rest)))) := by
    simp [msgEnc, List.append_assoc]
  rw [halign]
  simp [scanMsg, dropLit, scanQuoted_quoteStr]

theorem scanMsgsAux_round : ∀ (ms : List Message) (m : Message) (rest : List Char)
    (fuel : Nat), ms.length < fuel →
    scanMsgsAux fuel (joinSep ", ".data ((m :: ms).map msgEnc) ++ ']' :: rest) =
      some ((m :: ms).map fun x => (escape x.content.data, escape (Role.str x.role).data),
        rest) := by
  intro ms
  induction ms with
  | nil =>
    intro m rest fuel hf
    obtain ⟨f, rfl⟩ : ∃ f, fuel = f + 1 := ⟨fuel - 1, by omega⟩
    simp only [List.map_cons, List.map_nil, joinSep]
    unfold scanMsgsAux
    rw [scanMsg_msgEnc]
    simp
  | cons m2 ms ih =>
    intro m rest fuel hf
    obtain ⟨f, rfl⟩ : ∃ f, fuel = f + 1 := ⟨fuel - 1, by omega⟩
    have hjoin : joinSep ", ".data ((m :: m2 :: ms).map msgEnc) =
        msgEnc m ++ ", ".data ++ joinSep ", ".data ((m2 :: ms).map msgEnc) := by
      simp [joinSep]
    rw [hjoin]
    have halign : msgEnc m ++ ", ".data ++ joinSep ", ".data ((m2 :: ms).map msgEnc) ++
        ']' :: rest =
        msgEnc m ++ (',' :: ' ' ::
          (joinSep ", ".data ((m2 :: ms).map msgEnc) ++ ']' :: rest)) := by
      simp [List.append_assoc]
    rw [halign]
    unfold scanMsgsAux
    rw [scanMsg_msgEnc]
    have hlen : ms.length < f := by simp at hf; omega
    simp
    exact ih m2 rest f hlen

theorem joinSep_msgEnc_len (l : List Message) :
    l.length ≤ (joinSep ", ".data (l.map msgEnc)).length := by
  induction l with
  | nil => simp [joinSep]
  | cons m t ih =>
    have hm : 1 ≤ (msgEnc m).length := by
      have : msgEnc m = '\x7b' :: ("\"content\": ".data ++ quoteStr m.content ++
          ", \"role\": ".data ++ quoteStr (Role.str m.role) ++ "\x7d".data) := by
        simp [msgEnc]
      simp [this]
    cases t with
    | nil => simpa [joinSep] using hm
    | cons m2 t2 =>
      have : joinSep ", ".data ((m :: m2 :: t2).map msgEnc) =
          msgEnc m ++ ", ".data ++ joinSep ", ".data ((m2 :: t2).map msgEnc) := by
        simp [joinSep]
      simp only [this, List.length_append, List.length_cons]
      simp at ih ⊢
      omega

theorem scanMsgList_skip (s : List Char) (h : s.head? = some '\x7b') :
    scanMsgList s = scanMsgsAux (s.length + 1) s := by
  cases s with
  | nil => simp at h
  | cons c t =>
    have hc : c = '\x7b' := by simpa using h
    subst hc
    rfl

theorem scanMsgList_round (ms : List Message) (rest : List Char) :
    scanMsgList (joinSep ", ".data (ms.map msgEnc) ++ ']' :: rest) =
      some (ms.map fun x => (escape x.content.data, escape (Role.str x.role).data),
        rest) := by
  cases ms with
  | nil => rfl
  | cons m t =>
    have hm : msgEnc m = '\x7b' :: ("\"content\": ".data ++ quoteStr m.content ++
        ", \"role\": ".data ++ quoteStr (Role.str m.role) ++ "\x7d".data) := by
      simp [msgEnc]
    have hhead : (joinSep ", ".data ((m :: t).map msgEnc) ++ ']' :: rest).head? =
        some '\x7b' := by
      cases t with
      | nil => simp [joinSep, hm]
      | cons m2 t2 => simp [joinSep, hm, List.head?_append]
    have hfuel : t.length <
        (joinSep ", ".data ((m :: t).map msgEnc) ++ ']' :: rest).length + 1 := by
      have h1 := joinSep_msgEnc_len (m :: t)
      simp only [List.length_append, List.length_cons] at h1 ⊢
      omega
    rw [scanMsgList_skip _ hhead]
    exact scanMsgsAux_round t m rest _ hfuel

theorem scanMsgList_round2 (ms : List Message) (rest : List Char) :
    scanMsgList (joinSep [',', ' '] (ms.map msgEnc) ++ ']' :: rest) =
      some (ms.map fun x => (escape x.content.data, escape (Role.str x.role).data),
        rest) :=
  scanMsgList_round ms rest

theorem dropLit_self (l : List Char) : dropLit l l = some [] := by
  simpa using dropLit_append l []

set_option maxHeartbeats 1000000 in
theorem decodeCD_dumps (ms : List Message) (cfg : GenerationConfig) (prov : String) :
    decodeCD (dumpsCacheData ms cfg prov) = some (rawOf ms cfg prov) := by
  have halign : dumpsCacheData ms cfg prov =
      "\x7b\"max_tokens\": ".data ++ (optEnc intChars cfg.max_tokens ++
        (", \"messages\": [".data ++ (joinSep ", ".data (ms.map msgEnc) ++
          (']' :: (", \"model\": ".data ++ (optEnc quoteStr cfg.model ++
            (", \"provider\": ".data ++ (quoteStr prov ++
              (", \"temperature\": ".data ++ (optEnc PyFloat.tok cfg.temperature ++
                (", \"top_p\": ".data ++ (optEnc PyFloat.tok cfg.top_p ++
                  "\x7d".data)))))))))))) := by
    simp [dumpsCacheData, List.append_assoc]
  rw [halign]
  set T6 : List Char := "\x7d".data with hT6
  set T5 : List Char := ", \"top_p\": ".data ++ (optEnc PyFloat.tok cfg.top_p ++ T6) with hT5
  set T4 : List Char := ", \"temperature\": ".data ++
    (optEnc PyFloat.tok cfg.temperature ++ T5) with hT4
  set T3 : List Char := ", \"provider\": ".data ++ (quoteStr prov ++ T4) with hT3
  set T2 : List Char := ", \"model\": ".data ++ (optEnc quoteStr cfg.model ++ T3) with hT2
  set T1 : List Char := ", \"messages\": [".data ++
    (joinSep ", ".data (ms.map msgEnc) ++ ']' :: T2) with hT1
  have hH1 : T1.head? = some ',' ∨ T1.head? = some '\x7d' := Or.inl (by rw [hT1]; rfl)
  have hH5 : T5.head? = some ',' ∨ T5.head? = some '\x7d' := Or.inl (by rw [hT5]; rfl)
  have hH6 : T6.head? = some ',' ∨ T6.head? = some '\x7d' := Or.inr (by rw [hT6]; rfl)
  unfold decodeCD
  simp only [Option.bind_eq_bind]
  rw [dropLit_append]
  simp only [Option.some_bind]
  rw [scanOptNum_optEnc_int cfg.max_tokens T1 hH1]
  simp only [Option.some_bind]
  conv_lhs => rw [hT1]
  rw [dropLit_append]
  simp only [Option.some_bind]
  rw [scanMsgList_round ms T2]
  simp only [Option.some_bind]
  conv_lhs => rw [hT2]
  rw [dropLit_append]
  simp only [Option.some_bind]
  rw [scanOptStr_optEnc cfg.model T3]
  simp only [Option.some_bind]
  conv_lhs => rw [hT3]
  rw [dropLit_append]
  simp only [Option.some_bind]
  rw [scanQuoted_quoteStr prov T4]
  simp only [Option.some_bind]
  conv_lhs => rw [hT4]
  rw [dropLit_append]
  simp only [Option.some_bind]
  rw [scanOptNum_optEnc_float cfg.temperature T5 hH5]
  simp only [Option.some_bind]
  conv_lhs => rw [hT5]
  rw [dropLit_append]
  simp only [Option.some_bind]
  rw [scanOptNum_optEnc_float cfg.top_p T6 hH6]
  simp only [Option.some_bind]
  conv_lhs => rw [hT6]
  rw [dropLit_self]
  simp [rawOf]

theorem pyFloat_tok_injective : Function.Injective PyFloat.tok := by
  intro a b h
  cases a
  cases b
  simp_all

theorem role_str_injective : Function.Injective Role.str := by
  intro a b h
  cases a <;> cases b <;> first | rfl | (exfalso; simp [Role.str] at h)

theorem string_data_injective : Function.Injective String.data := fun _ _ h => String.ext h

theorem msg_rawPair_injective :
    Function.Injective fun m : Message => (escape m.content.data, escape (Role.str m.role).data) := by
  intro x y hxy
  simp only [Prod.mk.injEq] at hxy
  obtain ⟨hc, hr⟩ := hxy
  have hc' : x.content = y.content := string_data_injective (escape_injective hc)
  have hr' : x.role = y.role := role_str_injective (string_data_injective (escape_injective hr))
  cases x
  cases y
  simp_all

theorem dumpsCacheData_inj (m1 m2 : List Message) (c1 c2 : GenerationConfig) (p1 p2 : String)
    (h : dumpsCacheData m1 c1 p1 = dumpsCacheData m2 c2 p2) :
    m1 = m2 ∧ c1.model = c2.model ∧ c1.max_tokens = c2.max_tokens ∧
    c1.temperature = c2.temperature ∧ c1.top_p = c2.top_p ∧ p1 = p2 := by
  have hd := congrArg decodeCD h
  rw [decodeCD_dumps, decodeCD_dumps] at hd
  have hr := Option.some.inj hd
  have hmt := congrArg RawCD.mt hr
  have hmsgs := congrArg RawCD.msgs hr
  have hmdl := congrArg RawCD.mdl hr
  have hprov := congrArg RawCD.prov hr
  have htemp := congrArg RawCD.temp hr
  have htopp := congrArg RawCD.topp hr
  simp only [rawOf] at hmt hmsgs hmdl hprov htemp htopp
  refine ⟨?_, ?_, ?_, ?_, ?_, ?_⟩
  · exact List.map_injective_iff.mpr msg_rawPair_injective hmsgs
  · exact Option.map_injective
      (fun a b hab => string_data_injective (escape_injective hab)) hmdl
  · exact Option.map_injective intChars_injective hmt
  · exact Option.map_injective pyFloat_tok_injective htemp
  · exact Option.map_injective pyFloat_tok_injective htopp
  · exact string_data_injective (escape_injective hprov)

/-! ## Claim theorems -/

/-- C1: cache-key determinism and sensitivity.  With SHA-256 (the `sha`
parameter) treated as collision-free, `get_cache_key` on identical
`(messages, config, provider)` inputs yields identical keys, and the key
agrees between two calls exactly when the serialized fields — the message
list (content and order), `model`, `max_tokens`, `temperature`, `top_p`
and the provider name — all agree; changing any single one of them changes
the key. -/
theorem cache_key_determinism_sensitivity
    (sha : List Char → String) (hsha : Function.Injective sha) (cc : CacheConfig)
    (m1 m2 : List Message) (c1 c2 : GenerationConfig) (p1 p2 : String) :
    get_cache_key sha cc m1 c1 p1 = get_cache_key sha cc m2 c2 p2 ↔
      (m1 = m2 ∧ c1.model = c2.model ∧ c1.max_tokens = c2.max_tokens ∧
       c1.temperature = c2.temperature ∧ c1.top_p = c2.top_p ∧ p1 = p2) := by
  constructor
  · intro h
    unfold get_cache_key at h
    have hdata := congrArg String.data h
    rw [String.data_append, String.data_append] at hdata
    have hsha_eq : (sha (dumpsCacheData m1 c1 p1)).data =
        (sha (dumpsCacheData m2 c2 p2)).data := List.append_cancel_left hdata
    exact dumpsCacheData_inj m1 m2 c1 c2 p1 p2 (hsha (String.ext hsha_eq))
  · rintro ⟨h1, h2, h3, h4, h5, h6⟩
    unfold get_cache_key dumpsCacheData
    rw [h1, h2, h3, h4, h5, h6]

/-- Witness for C1: at the spec's own example (`[{role: user, content:
"Hello!"}]`, `model "X"`, `max_tokens 10`, provider `"openai"`), the key
equals itself, and bumping `max_tokens` to 11 changes the key (the `sha`
hypothesis instantiated with the injective `String.mk`). -/
theorem cache_key_determinism_sensitivity_witness :
    get_cache_key String.mk ⟨true, "llmx:"⟩ [⟨Role.user, "Hello!"⟩]
        ⟨some "X", some 10, none, none, false, true⟩ "openai" =
      get_cache_key String.mk ⟨true, "llmx:"⟩ [⟨Role.user, "Hello!"⟩]
        ⟨some "X", some 10, none, none, false, true⟩ "openai" ∧
    get_cache_key String.mk ⟨true, "llmx:"⟩ [⟨Role.user, "Hello!"⟩]
        ⟨some "X", some 10, none, none, false, true⟩ "openai" ≠
      get_cache_key String.mk ⟨true, "llmx:"⟩ [⟨Role.user, "Hello!"⟩]
        ⟨some "X", some 11, none, none, false, true⟩ "openai" := by
  have hinj : Function.Injective String.mk := fun _ _ h => congrArg String.data h
  constructor
  · exact (cache_key_determinism_sensitivity String.mk hinj ⟨true, "llmx:"⟩
      [⟨Role.user, "Hello!"⟩] [⟨Role.user, "Hello!"⟩]
      ⟨some "X", some 10, none, none, false, true⟩
      ⟨some "X", some 10, none, none, false, true⟩ "openai" "openai").mpr
      ⟨rfl, rfl, rfl, rfl, rfl, rfl⟩
  · intro h
    have := (cache_key_determinism_sensitivity String.mk hinj ⟨true, "llmx:"⟩
      [⟨Role.user, "Hello!"⟩] [⟨Role.user, "Hello!"⟩]
      ⟨some "X", some 10, none, none, false, true⟩
      ⟨some "X", some 11, none, none, false, true⟩ "openai" "openai").mp h
    simp at this

theorem try_fallback_all_errors {ε α : Type} (e : ε) :
    ∀ fbs : List (Except ε α), (∀ f ∈ fbs, ∃ err, f = .error err) →
      try_fallback e fbs = .error e := by
  intro fbs
  induction fbs with
  | nil => intro _; rfl
  | cons f rest ih =>
    intro hall
    obtain ⟨err, rfl⟩ := hall f (by simp)
    exact ih fun g hg => hall g (by simp [hg])

/-- C2 counterexample: the primary fails with one error and the single
configured fallback fails with a different error; `generate` surfaces the
primary's error, not the final fallback attempt's. -/
theorem fallback_last_error_counterexample :
    generate_result (α := Response)
        (.error (PyErr.providerError "primary down" "openai" (some 500)))
        [.error (PyErr.providerError "fallback down" "claude" (some 500))] =
      .error (PyErr.providerError "primary down" "openai" (some 500)) ∧
    (Except.error (PyErr.providerError "primary down" "openai" (some 500)) :
        Except PyErr Response) ≠
      .error (PyErr.providerError "fallback down" "claude" (some 500)) := by
  refine ⟨rfl, ?_⟩
  intro h
  injection h with h
  simp at h

/-- C2 amended: when the primary provider and every configured fallback
fail, `generate` re-raises the primary provider's original exception: the
bare `raise` at the end of `_try_fallback` re-raises the exception being
handled by `generate`'s `except` block (each fallback's exception was
swallowed by `continue`), so the last fallback's error is discarded. -/
theorem fallback_exhaustion_primary_error (e : PyErr)
    (fbs : List (Except PyErr Response))
    (hall : ∀ f ∈ fbs, ∃ err, f = .error err) :
    generate_result (.error e) fbs = .error e := by
  cases fbs with
  | nil => rfl
  | cons f rest =>
    unfold generate_result
    simp only [List.isEmpty_cons, Bool.false_eq_true, if_false]
    exact try_fallback_all_errors e (f :: rest) hall

/-- Witness for the amended C2: with a concrete primary error and two
concrete failing fallbacks, the primary's error is what comes back. -/
theorem fallback_exhaustion_primary_error_witness :
    generate_result (α := Response)
        (.error (PyErr.rateLimitError "Rate limit exceeded" "openai"))
        [.error (PyErr.authenticationError "Invalid API key" "claude"),
         .error (PyErr.providerError "boom" "cohere" (some 503))] =
      .error (PyErr.rateLimitError "Rate limit exceeded" "openai") := by
  apply fallback_exhaustion_primary_error
  intro f hf
  fin_cases hf <;> exact ⟨_, rfl⟩

/-- C3 counterexample: attempts 1 and 2 answer HTTP 401 and attempt 3
succeeds; the decorated `generate` returns the third attempt's success
after three attempts.  A 401 is therefore retried like any other
exception, not surfaced after a single attempt. -/
theorem retry_401_counterexample :
    openai_generate_retried (fun i => if i < 2 then .httpError 401 none "Unauthorized"
      else .success ⟨[⟨"ok", some "stop"⟩], none, "openai", "gpt-3.5-turbo", false⟩) =
      .ok ⟨[⟨"ok", some "stop"⟩], none, "openai", "gpt-3.5-turbo", false⟩ ∧
    openai_generate_attemptCount (fun i => if i < 2 then .httpError 401 none "Unauthorized"
      else .success ⟨[⟨"ok", some "stop"⟩], none, "openai", "gpt-3.5-turbo", false⟩) = 3 := by
  exact ⟨rfl, rfl⟩

/-- C3 amended: the tenacity decorator on the adapters' `generate` has no
`retry=` predicate, so its default — retry on any exception — applies: the
call stops at the first successful attempt within the 3-attempt ceiling
and otherwise surfaces the third attempt's typed error (`reraise=True`);
no error, 401 and other 4xx included, fails after a single attempt. -/
theorem retry_policy_all_exceptions (o : Nat → HTTPOutcome) :
    openai_generate_retried o =
      (match o 0 with
       | .success r => .ok r
       | _ => match o 1 with
         | .success r => .ok r
         | _ => openai_attempt (o 2)) ∧
    openai_generate_attemptCount o =
      (match o 0 with
       | .success _ => 1
       | _ => match o 1 with
         | .success _ => 2
         | _ => 3) := by
  rcases h0 : o 0 with r0 | ⟨s0, pm0, raw0⟩ | raw0 <;>
    rcases h1 : o 1 with r1 | ⟨s1, pm1, raw1⟩ | raw1 <;>
      simp [openai_generate_retried, openai_generate_attemptCount, stop_attempts,
        retryCall, retryCount, openai_attempt, h0, h1]

theorem cmSets_avoid (cfg : CacheConfig) :
    ∀ (ops : List (String × Nat)) (mem : List (String × Nat)) (key : String),
      key ∉ ops.map Prod.fst → cmGet cfg (cmSets cfg mem ops) key = cmGet cfg mem key := by
  intro ops
  induction ops with
  | nil => intro mem key _; rfl
  | cons p rest ih =>
    intro mem key h
    simp only [List.map_cons, List.mem_cons, not_or] at h
    show cmGet cfg (cmSets cfg (cmSet cfg mem p.1 p.2) rest) key = cmGet cfg mem key
    rw [ih (cmSet cfg mem p.1 p.2) key h.2]
    unfold cmGet cmSet
    cases hcfg : cfg.enabled
    · simp
    · have hbe : (key == p.1) = false := by simpa using h.1
      simp [List.lookup, hbe]

/-- C4: cache round-trip with caching enabled and no external store.
Setting a key and reading it back returns the very Response that was
stored (equal in every field, in particular in all fields except
`cached`); a key never set — no matter what other keys were set before —
reads back as nothing; and after `clear()`, every previously set key reads
back as nothing. -/
theorem cache_round_trip (cfg : CacheConfig) (heap : Heap) (mem : List (String × Nat))
    (key : String) (ref : Nat) (r : Response)
    (henabled : cfg.enabled = true) (href : heapGet heap ref = some r)
    (ops : List (String × Nat)) (hops : key ∉ ops.map Prod.fst) :
    cmGetResp cfg (cmSet cfg mem key ref) heap key = some r ∧
    cmGetResp cfg (cmSets cfg [] ops) heap key = none ∧
    cmGetResp cfg (cmClear cfg mem) heap key = none := by
  refine ⟨?_, ?_, ?_⟩
  · unfold cmGetResp cmGet cmSet
    simp [henabled, List.lookup, href]
  · unfold cmGetResp
    rw [cmSets_avoid cfg ops [] key hops]
    unfold cmGet
    simp [henabled, List.lookup]
  · unfold cmGetResp cmClear cmGet
    simp [henabled, List.lookup]

/-- Witness for C4 at concrete values: store a Response under `"k"` with
another key `"other"` also set, read all three facts back. -/
theorem cache_round_trip_witness :
    cmGetResp ⟨true, "llmx:"⟩
        (cmSet ⟨true, "llmx:"⟩ [] "k" 0)
        [(0, ⟨[⟨"Hello!", some "stop"⟩], none, "openai", "gpt-4", false⟩)] "k" =
      some ⟨[⟨"Hello!", some "stop"⟩], none, "openai", "gpt-4", false⟩ ∧
    cmGetResp ⟨true, "llmx:"⟩ (cmSets ⟨true, "llmx:"⟩ [] [("other", 1)])
        [(0, ⟨[⟨"Hello!", some "stop"⟩], none, "openai", "gpt-4", false⟩)] "k" = none ∧
    cmGetResp ⟨true, "llmx:"⟩ (cmClear ⟨true, "llmx:"⟩ (cmSet ⟨true, "llmx:"⟩ [] "k" 0))
        [(0, ⟨[⟨"Hello!", some "stop"⟩], none, "openai", "gpt-4", false⟩)] "k" = none := by
  exact cache_round_trip ⟨true, "llmx:"⟩
    [(0, ⟨[⟨"Hello!", some "stop"⟩], none, "openai", "gpt-4", false⟩)] [] "k" 0
    ⟨[⟨"Hello!", some "stop"⟩], none, "openai", "gpt-4", false⟩ rfl rfl
    [("other", 1)] (by decide)

theorem heapGet_heapUpdate (heap : Heap) (ref : Nat) (f : Response → Response) :
    heapGet (heapUpdate heap ref f) ref = (heapGet heap ref).map f := by
  induction heap with
  | nil => rfl
  | cons p rest ih =>
    obtain ⟨a, x⟩ := p
    by_cases hp : a = ref
    · subst hp
      unfold heapUpdate heapGet at *
      simp only [List.map_cons]
      simp [List.lookup, ih]
    · unfold heapUpdate heapGet at *
      have hbe : (ref == a) = false := by simpa using Ne.symm hp
      simp only [List.map_cons, if_neg hp]
      simp [List.lookup, hbe, ih]

/-- C5 counterexample: the in-memory cache holds a Response with
`cached=false`; serving a hit for its key leaves the stored entry with
`cached=true` — the hit mutated the cached object, contradicting the claim
that the entry still has `cached=false`. -/
theorem cache_hit_mutation_counterexample :
    heapGet (serve_cache_hit ⟨true, "llmx:"⟩
        [(0, ⟨[⟨"hi", some "stop"⟩], none, "openai", "gpt-4", false⟩)] [("k", 0)] "k").1 0 =
      some ⟨[⟨"hi", some "stop"⟩], none, "openai", "gpt-4", true⟩ ∧
    some (⟨[⟨"hi", some "stop"⟩], none, "openai", "gpt-4", true⟩ : Response) ≠
      some (⟨[⟨"hi", some "stop"⟩], none, "openai", "gpt-4", false⟩ : Response) := by
  refine ⟨rfl, ?_⟩
  intro h
  injection h with h
  simp at h

/-- C5 amended: serving a cache hit mutates the stored entry in place:
after the hit, `generate` returns (a reference to) the cached object with
`cached=true`, and the in-memory cache's entry for the key — the same
object — now also carries `cached=true` rather than the `cached=false` it
was stored with. -/
theorem cache_hit_mutates_stored (cfg : CacheConfig) (heap : Heap)
    (mem : List (String × Nat)) (key : String) (ref : Nat) (r : Response)
    (hget : cmGet cfg mem key = some ref) (href : heapGet heap ref = some r) :
    (serve_cache_hit cfg heap mem key).2 = some ref ∧
    heapGet (serve_cache_hit cfg heap mem key).1 ref = some { r with cached := true } := by
  unfold serve_cache_hit
  rw [hget]
  exact ⟨rfl, by rw [heapGet_heapUpdate, href]; rfl⟩

/-- Witness for the amended C5 at concrete values. -/
theorem cache_hit_mutates_stored_witness :
    (serve_cache_hit ⟨true, "llmx:"⟩
        [(0, ⟨[⟨"hi", some "stop"⟩], none, "openai", "gpt-4", false⟩)] [("k", 0)] "k").2 =
      some 0 ∧
    heapGet (serve_cache_hit ⟨true, "llmx:"⟩
        [(0, ⟨[⟨"hi", some "stop"⟩], none, "openai", "gpt-4", false⟩)] [("k", 0)] "k").1 0 =
      some ⟨[⟨"hi", some "stop"⟩], none, "openai", "gpt-4", true⟩ :=
  cache_hit_mutates_stored ⟨true, "llmx:"⟩
    [(0, ⟨[⟨"hi", some "stop"⟩], none, "openai", "gpt-4", false⟩)] [("k", 0)] "k" 0
    ⟨[⟨"hi", some "stop"⟩], none, "openai", "gpt-4", false⟩ rfl rfl

theorem hfStreamChunks_terminal : ∀ (n : Nat) (content : List Char), content.length ≤ n →
    content ≠ [] → ∃ pre last, hfStreamChunks content = pre ++ [last] ∧ last.done = true ∧
      ∀ ch ∈ pre, ch.done = false := by
  intro n
  induction n with
  | zero =>
    intro content hlen hne
    cases content with
    | nil => exact absurd rfl hne
    | cons c t => simp at hlen
  | succ n ih =>
    intro content hlen hne
    rw [hfStreamChunks, if_neg hne]
    by_cases hrest : content.drop 10 = []
    · refine ⟨[], ⟨String.mk (content.take 10), some "stop", true⟩, ?_, rfl, by simp⟩
      simp [hrest, hfStreamChunks]
    · obtain ⟨pre, last, h1, h2, h3⟩ := ih (content.drop 10)
        (by
          have := List.length_drop 10 content
          have hpos : 0 < content.length := List.length_pos.mpr hne
          omega) hrest
      refine ⟨⟨String.mk (content.take 10),
        if (content.drop 10).isEmpty then some "stop" else none,
        (content.drop 10).isEmpty⟩ :: pre, last, ?_, h2, ?_⟩
      · simp [h1]
      · intro ch hch
        rcases List.mem_cons.mp hch with h | h
        · subst h
          simp [hrest]
        · exact h3 ch h

/-- C6 counterexample: the HuggingFace simulated stream for an EMPTY
full-response content emits no chunks at all — in particular no chunk with
`done=true` — because the slicing loop body never runs; "exactly one
terminal chunk" fails for the empty string. -/
theorem hf_stream_empty_counterexample :
    hfStreamChunks "".data = [] ∧
    (hfStreamChunks "".data).countP (fun c => c.done) = 0 := by
  constructor <;> simp [hfStreamChunks]

/-- C6 amended: for every stream produced by the HuggingFace simulated
streaming over a NON-EMPTY content, exactly one chunk has `done=true` and
it is the last chunk; for empty content the stream is empty and has no
terminal chunk. -/
theorem hf_stream_one_terminal_chunk (content : List Char) :
    (content ≠ [] → ∃ pre last, hfStreamChunks content = pre ++ [last] ∧
      last.done = true ∧ ∀ ch ∈ pre, ch.done = false) ∧
    hfStreamChunks [] = [] := by
  refine ⟨fun hne => hfStreamChunks_terminal content.length content le_rfl hne, ?_⟩
  simp [hfStreamChunks]

/-- Witness for the amended C6 at a concrete 13-character content: two
chunks, only the second of which is terminal. -/
theorem hf_stream_one_terminal_chunk_witness :
    ("abcdefghijKLM".data ≠ []) ∧
    (∃ pre last, hfStreamChunks "abcdefghijKLM".data = pre ++ [last] ∧
      last.done = true ∧ ∀ ch ∈ pre, ch.done = false) :=
  ⟨by decide, (hf_stream_one_terminal_chunk "abcdefghijKLM".data).1 (by decide)⟩

/-- C7 counterexample: `stream=True`, the primary provider's stream fails
before emitting any chunk, and a fallback that would succeed is
configured; the dispatcher nevertheless returns the primary's lazy
generator untouched, and consuming it yields no chunks and the primary's
error — the caller does not receive a working fallback stream. -/
theorem streaming_fallback_counterexample :
    generate_stream_entry (ε := PyErr)
        [Except.ok ⟨[⟨"fallback works", some "stop"⟩], none, "claude", "m", false⟩]
        (fun _ => ⟨[], some (.providerError "boom" "openai" (some 500))⟩) =
      .ok (.inl (fun _ => ⟨[], some (.providerError "boom" "openai" (some 500))⟩)) ∧
    consumeStream
        (fun _ => (⟨[], some (.providerError "boom" "openai" (some 500))⟩ :
          PyStream PyErr)) =
      ⟨[], some (.providerError "boom" "openai" (some 500))⟩ :=
  ⟨rfl, rfl⟩

/-- C7 amended: the dispatcher's streaming path never falls back: calling
`_generate_stream` only creates a generator so the `try` never observes a
provider error, the configured fallbacks are ignored, and the caller
consumes exactly the primary's stream (errors before the first chunk
included).  In particular a stream is never swapped to a fallback
mid-stream. -/
theorem streaming_no_fallback {ε : Type} (fbs : List (Except ε Response))
    (body : Unit → PyStream ε) :
    generate_stream_entry fbs body = .ok (.inl body) ∧
    consumeStream body = body () :=
  ⟨rfl, rfl⟩

/-- C8: every adapter's error translator maps HTTP 401 to
`AuthenticationError` and HTTP 429 to `RateLimitError` (OpenAI, Claude,
Cohere, HuggingFace as written; Grok modelled from the spec since its file
is not among the sources); and `get_provider` on an unrecognized name
raises `ConfigurationError` whose message contains every registered
canonical name and alias. -/
theorem error_classification (pm : Option String) (raw : String) (name : String)
    (hname : providersTable.lookup (pyLower name) = none) :
    (openai_handle_http_error 401 pm raw = .authenticationError "Invalid API key" "openai" ∧
     claude_handle_http_error 401 pm raw = .authenticationError "Invalid API key" "claude" ∧
     cohere_handle_http_error 401 pm raw = .authenticationError "Invalid API key" "cohere" ∧
     huggingface_handle_http_error 401 pm raw =
       .authenticationError "Invalid HuggingFace token" "huggingface" ∧
     grok_handle_http_error 401 pm raw = .authenticationError "Invalid API key" "grok" ∧
     openai_handle_http_error 429 pm raw = .rateLimitError "Rate limit exceeded" "openai" ∧
     claude_handle_http_error 429 pm raw = .rateLimitError "Rate limit exceeded" "claude" ∧
     cohere_handle_http_error 429 pm raw = .rateLimitError "Rate limit exceeded" "cohere" ∧
     huggingface_handle_http_error 429 pm raw =
       .rateLimitError "Rate limit exceeded" "huggingface" ∧
     grok_handle_http_error 429 pm raw = .rateLimitError "Rate limit exceeded" "grok") ∧
    (∃ msg, get_provider name = .error (.configurationError msg) ∧
      ∀ p ∈ providersTable, p.1.data <:+: msg.data) := by
  refine ⟨⟨rfl, rfl, rfl, rfl, rfl, rfl, rfl, rfl, rfl, rfl⟩, ?_⟩
  refine ⟨"Provider '" ++ pyLower name ++ "' not supported. Available providers: " ++
    availableProviders, ?_, ?_⟩
  · unfold get_provider
    simp only [hname]
  · intro p hp
    have h2 : availableProviders.data <:+:
        ("Provider '" ++ pyLower name ++ "' not supported. Available providers: " ++
          availableProviders).data := by
      apply List.IsSuffix.isInfix
      rw [String.data_append]
      exact ⟨_, rfl⟩
    have h1 : p.1.data <:+: availableProviders.data := by
      fin_cases hp <;> decide
    exact h1.trans h2

/-- Witness for C8 at the unrecognized name `"gpt5"` (all hypotheses
discharged concretely; the lookup-miss hypothesis by evaluation). -/
theorem error_classification_witness :
    providersTable.lookup (pyLower "gpt5") = none ∧
    (∃ msg, get_provider "gpt5" = .error (.configurationError msg) ∧
      ∀ p ∈ providersTable, p.1.data <:+: msg.data) :=
  ⟨by decide, (error_classification none "" "gpt5" (by decide)).2⟩

/-- C9 counterexample: for `[user "hi", system "inst"]` — whose only
system message is NOT leading — the conversion loop extracts the trailing
system message into the top-level field and drops it from the messages
list, while the claim's leading-only rule would leave the field empty and
the list untouched. -/
theorem claude_translation_counterexample :
    claude_convert [⟨.user, "hi"⟩, ⟨.system, "inst"⟩] =
      (some "inst", [(.user, "hi")]) ∧
    claude_convert_spec [⟨.user, "hi"⟩, ⟨.system, "inst"⟩] =
      (none, [(.user, "hi"), (.system, "inst")]) ∧
    claude_convert [⟨.user, "hi"⟩, ⟨.system, "inst"⟩] ≠
      claude_convert_spec [⟨.user, "hi"⟩, ⟨.system, "inst"⟩] := by
  refine ⟨rfl, rfl, ?_⟩
  intro h
  rw [show claude_convert [⟨.user, "hi"⟩, ⟨.system, "inst"⟩] =
      (some "inst", [(.user, "hi")]) from rfl,
    show claude_convert_spec [⟨.user, "hi"⟩, ⟨.system, "inst"⟩] =
      (none, [(.user, "hi"), (.system, "inst")]) from rfl] at h
  simp at h

theorem getLast?_cons_or {α : Type} (a : α) (l : List α) :
    (a :: l).getLast? = l.getLast?.or (some a) := by
  induction l generalizing a with
  | nil => rfl
  | cons b t ih =>
    rw [List.getLast?_cons_cons, ih b]
    cases ht : t.getLast? <;> simp [ht, Option.or]

theorem claude_convert_fold (messages : List Message) :
    ∀ (s : Option String) (l : List (Role × String)),
    messages.foldl
      (fun acc (m : Message) =>
        match m.role with
        | .system => (some m.content, acc.2)
        | _ => (acc.1, acc.2 ++ [(m.role, m.content)])) (s, l) =
      ((lastSystemContent messages).or s, l ++ nonSystemPairs messages) := by
  induction messages with
  | nil => intro s l; simp [lastSystemContent, nonSystemPairs]
  | cons m rest ih =>
    obtain ⟨role, content⟩ := m
    intro s l
    cases role
    · rw [List.foldl_cons]
      dsimp only
      rw [ih (some content) l]
      unfold lastSystemContent nonSystemPairs
      simp only [List.filterMap_cons, List.filter_cons]
      dsimp only
      rw [getLast?_cons_or]
      cases h2 : (rest.filterMap fun m : Message =>
          match m.role with
          | Role.system => some m.content
          | _ => none).getLast? <;>
        simp [h2, Option.or]
    · rw [List.foldl_cons]
      dsimp only
      rw [ih s (l ++ [(Role.user, content)])]
      unfold lastSystemContent nonSystemPairs
      simp only [List.filterMap_cons, List.filter_cons]
      dsimp only
      simp [List.append_assoc]
    · rw [List.foldl_cons]
      dsimp only
      rw [ih s (l ++ [(Role.assistant, content)])]
      unfold lastSystemContent nonSystemPairs
      simp only [List.filterMap_cons, List.filter_cons]
      dsimp only
      simp [List.append_assoc]

/-- C9 amended: the Claude conversion loop removes EVERY system-role
message from the wire messages list (not just a leading one), keeps the
non-system messages in their original order, leaves in `system_message`
the content of the LAST system-role message, and the payload's top-level
`system` field carries that content exactly when it is non-empty (Python
truthiness). -/
theorem claude_translation_amended (messages : List Message) :
    claude_convert messages = (lastSystemContent messages, nonSystemPairs messages) ∧
    claude_payload_system (claude_convert messages).1 =
      (lastSystemContent messages).bind (fun s => if s = "" then none else some s) := by
  have h := claude_convert_fold messages none []
  simp only [Option.or_none, List.nil_append] at h
  have hcc : claude_convert messages = (lastSystemContent messages, nonSystemPairs messages) := h
  refine ⟨hcc, ?_⟩
  rw [hcc]
  cases lastSystemContent messages <;> rfl

/-- C10: HuggingFace prompt-echo stripping.  The parsed Response's single
choice is the extracted content; when the backend's `generated_text`
starts with exactly the transcript sent as input, that content is the
remainder after the transcript with surrounding whitespace stripped;
otherwise it is the full `generated_text` unchanged. -/
theorem hf_prompt_echo_strip (messages : List Message) (generated rest : List Char)
    (model : String) :
    ((hf_parse_response generated model (convert_messages_to_hf messages)).text =
      [⟨String.mk (hf_extract_content generated (convert_messages_to_hf messages)),
        some "stop"⟩]) ∧
    (generated = convert_messages_to_hf messages ++ rest →
      hf_extract_content generated (convert_messages_to_hf messages) = pyStrip rest) ∧
    (¬ (convert_messages_to_hf messages).isPrefixOf generated = true →
      hf_extract_content generated (convert_messages_to_hf messages) = generated) := by
  refine ⟨rfl, ?_, ?_⟩
  · intro h
    subst h
    unfold hf_extract_content
    rw [if_pos (by rw [List.isPrefixOf_iff_prefix]; exact List.prefix_append _ _)]
    rw [List.drop_left]
  · intro h
    unfold hf_extract_content
    rw [if_neg h]

/-- Witness for C10: with the single user message "Hi" the transcript is
`Human: Hi\nAssistant:`; a generated text that echoes it has the echo
stripped (and the remainder whitespace-trimmed), and a generated text that
does not start with it comes through unchanged. -/
theorem hf_prompt_echo_strip_witness :
    (("Human: Hi\nAssistant: hello there ".data : List Char) =
      convert_messages_to_hf [⟨Role.user, "Hi"⟩] ++ " hello there ".data ∧
     hf_extract_content "Human: Hi\nAssistant: hello there ".data
       (convert_messages_to_hf [⟨Role.user, "Hi"⟩]) = pyStrip " hello there ".data) ∧
    (¬ (convert_messages_to_hf [⟨Role.user, "Hi"⟩]).isPrefixOf "hello".data = true ∧
     hf_extract_content "hello".data (convert_messages_to_hf [⟨Role.user, "Hi"⟩]) =
       "hello".data) := by
  refine ⟨⟨by decide, ?_⟩, ⟨by decide, ?_⟩⟩
  · exact (hf_prompt_echo_strip [⟨Role.user, "Hi"⟩]
      "Human: Hi\nAssistant: hello there ".data " hello there ".data "m").2.1 (by decide)
  · exact (hf_prompt_echo_strip [⟨Role.user, "Hi"⟩] "hello".data [] "m").2.2 (by decide)

end LLMX
